import Mathlib

/-!
# Verification of the NRCLex affect analyzer (`src/nrclex/nrclex.py`)

Shallow embedding of the lexicon-matching and frequency-aggregation core of
the `NRCLex` class.  Python dictionaries are modelled as association lists
(key lookup returns the first matching entry; Python dicts have no duplicate
keys, and every dict built here keeps that invariant).  Integer counts are
`Nat`, frequencies are `ℚ` (the Python floats are exact quotients of small
integers here, and the claims of the spec are stated over rational arithmetic).
A Python statement that can raise (`ZeroDivisionError` in the frequency
comprehension, `ValueError` from `max()` on an empty sequence, `TypeError`
in the constructor) is modelled as returning `none` / an `Except` error.
-/

namespace NRCLex

/-- A lexicon: mapping from word to its list of emotion labels
(`self.lexicon : dict[str, list[str]]`). -/
abbrev Lexicon := List (String × List String)

/-- The mutable fields of the Python `NRCLex` object. -/
structure NRCState where
  lexicon : Lexicon
  words : List String
  affect_list : List String
  affect_dict : List (String × List String)
  raw_emotion_scores : List (String × Nat)
  affect_frequencies : List (String × ℚ)
deriving DecidableEq

/-- Python `dict.update({k: v})`: replace the value if the key is present,
otherwise append the new entry (insertion order). -/
def dictUpdate (d : List (String × List String)) (k : String) (v : List String) :
    List (String × List String) :=
  if (d.lookup k).isSome then
    d.map (fun p => if p.1 = k then (k, v) else p)
  else d ++ [(k, v)]

/-- Python `Counter`: `affect_frequencies[word] += 1`.  A missing key is
created with count 1 (appended, insertion order); a present key has its
count incremented. -/
def counterInc (c : List (String × Nat)) (k : String) : List (String × Nat) :=
  if (c.lookup k).isSome then
    c.map (fun p => if p.1 = k then (p.1, p.2 + 1) else p)
  else c ++ [(k, 1)]

/-- The `for word in affect_list: affect_frequencies[word] += 1` loop. -/
def mkCounter (l : List String) : List (String × Nat) :=
  l.foldl counterInc []

/-- `sum(affect_frequencies.values())`. -/
def sumValues (c : List (String × Nat)) : Nat := (c.map Prod.snd).sum

/-- The dict comprehension
`{key: float(affect_frequencies[key]) / float(sum_values) for key in affect_frequencies.keys()}`.
It iterates over the keys of the counter, so with an empty counter it produces the
empty dict without ever dividing; with a non-empty counter and a zero sum it
raises `ZeroDivisionError`, modelled as `none`. -/
def affect_percent (c : List (String × Nat)) : Option (List (String × ℚ)) :=
  if c = [] then some []
  else if sumValues c = 0 then none
  else some (c.map (fun p => (p.1, (p.2 : ℚ) / (sumValues c : ℚ))))

/-- One iteration of the matching loop in `build_word_affect`:
`if word in lexicon_keys: affect_list.extend(lexicon[word]); affect_dict.update({word: lexicon[word]})`.
The accumulator is the pair `(affect_list, affect_dict)`. -/
def matchStep (lex : Lexicon) (acc : List String × List (String × List String))
    (w : String) : List String × List (String × List String) :=
  match lex.lookup w with
  | some es => (acc.1 ++ es, dictUpdate acc.2 w es)
  | none => acc

/-- `NRCLex.build_word_affect`: recompute every derived field from
`self.words` and `self.lexicon`.  Returns `none` if the frequency
comprehension would raise (it never does; see `load_token_list_eq`). -/
def build_word_affect (st : NRCState) : Option NRCState :=
  let r := st.words.foldl (matchStep st.lexicon) ([], [])
  let affect_frequencies := mkCounter r.1
  match affect_percent affect_frequencies with
  | none => none
  | some ap => some { st with
      affect_list := r.1,
      affect_dict := r.2,
      raw_emotion_scores := affect_frequencies,
      affect_frequencies := ap }

/-- `NRCLex.load_token_list`: store the token list in `self.words`, then
rebuild the derived state. -/
def load_token_list (st : NRCState) (token_list : List String) : Option NRCState :=
  build_word_affect { st with words := token_list }

/-- `NRCLex.load_raw_text`: delegate to the external tokenizer/lemmatizer
(modelled as an oracle `tokenize`), then load the resulting token list. -/
def load_raw_text (tokenize : String → List String) (st : NRCState)
    (text : String) : Option NRCState :=
  load_token_list st (tokenize text)

/-- Python `max(values)`: `none` (a raised `ValueError`) on an empty
sequence, otherwise the left fold of binary `max` over the elements. -/
def pymax : List ℚ → Option ℚ
  | [] => none
  | v :: vs => some (vs.foldl max v)

/-- `NRCLex.top_emotions`: `max_value = max(self.affect_frequencies.values())`
(raising on an empty dict, modelled as `none`), then every
`(key, max_value)` pair whose frequency equals the maximum. -/
def top_emotions (st : NRCState) : Option (List (String × ℚ)) :=
  match pymax (st.affect_frequencies.map Prod.snd) with
  | none => none
  | some m =>
    some ((st.affect_frequencies.filter (fun p => decide (p.2 = m))).map
      (fun p => (p.1, m)))

/-- The constructor argument: a `pathlib.Path` value or a string designator. -/
inductive LexiconFile where
  | path (p : String)
  | designator (s : String)
deriving DecidableEq

/-- The single recognized pre-installed lexicon designator. -/
def preinstalledName : String := "NRCLex"

/-- The packaged resource behind the designator:
`files("nrclex.data").joinpath("nrc_en.json")`. -/
def preinstalledResource : String := "nrclex.data/nrc_en.json"

/-- The field state right after `__init__` finishes: the loaded lexicon and
every other field empty. -/
def initState (lex : Lexicon) : NRCState :=
  { lexicon := lex, words := [], affect_list := [], affect_dict := [],
    raw_emotion_scores := [], affect_frequencies := [] }

/-- Python exceptions surfaced by the constructor. -/
inductive PyError where
  | typeError
deriving DecidableEq

/-- `NRCLex.load_lexicon`: parse the JSON file at `p` and replace
`self.lexicon`.  File reading and JSON parsing are modelled by the oracle
`readFile`. -/
def load_lexicon (readFile : String → Lexicon) (st : NRCState) (p : String) :
    NRCState :=
  { st with lexicon := readFile p }

/-- `NRCLex.__init__`: a `Path` argument loads that file; the designator
`"NRCLex"` loads the packaged resource; anything else raises `TypeError`
before any lexicon is loaded. -/
def NRCLex_init (readFile : String → Lexicon) :
    LexiconFile → Except PyError NRCState
  | .path p => .ok (initState (readFile p))
  | .designator s =>
    if s = preinstalledName then .ok (initState (readFile preinstalledResource))
    else .error .typeError

/-- The emotion frequencies that `affect_percent` produces on a counter whose
sum is non-zero (and, vacuously, on the empty counter). -/
def freqOf (c : List (String × Nat)) : List (String × ℚ) :=
  c.map (fun p => (p.1, (p.2 : ℚ) / (sumValues c : ℚ)))

/-- The full state after a successful `load_token_list` on lexicon `lex` and
token list `tl` (shown equal to the computed one in `load_token_list_eq`). -/
def buildState (lex : Lexicon) (tl : List String) : NRCState :=
  let r := tl.foldl (matchStep lex) ([], [])
  let cnt := mkCounter r.1
  { lexicon := lex, words := tl, affect_list := r.1, affect_dict := r.2,
    raw_emotion_scores := cnt, affect_frequencies := freqOf cnt }

/-- The two-word example lexicon from the specification scenario. -/
def exLex : Lexicon := [("happy", ["joy", "positive"]), ("sad", ["sadness", "negative"])]

/-! ### Association-list and counter lemmas -/

theorem lookup_append {β : Type} (l₁ l₂ : List (String × β)) (k : String) :
    (l₁ ++ l₂).lookup k = (l₁.lookup k).or (l₂.lookup k) := by
  induction l₁ with
  | nil => simp
  | cons p t ih =>
    obtain ⟨a, b⟩ := p
    rcases hk : (k == a) with _ | _ <;> simp [List.lookup, hk, ih]

theorem lookup_map_inc (c : List (String × Nat)) (w k : String) :
    ((c.map (fun p => if p.1 = w then (p.1, p.2 + 1) else p)).lookup k) =
      (c.lookup k).map (fun v => if k = w then v + 1 else v) := by
  induction c with
  | nil => rfl
  | cons p t ih =>
    obtain ⟨a, b⟩ := p
    have hentry : (if (a, b).1 = w then ((a, b).1, (a, b).2 + 1) else (a, b))
        = (a, if a = w then b + 1 else b) := by
      by_cases h : a = w <;> simp [h]
    rw [List.map_cons, hentry]
    cases hk : (k == a) with
    | false => simp [List.lookup, hk, ih]
    | true =>
      have hke : k = a := eq_of_beq hk
      subst hke
      by_cases h2 : k = w
      · subst h2
        simp [List.lookup, hk, if_pos rfl]
      · have hne : ¬(k = w) := h2
        simp [List.lookup, hk, if_neg hne, if_neg (fun hh : k = w => hne hh)]

theorem counterInc_cnt (c : List (String × Nat)) (w k : String) :
    ((counterInc c w).lookup k).getD 0 =
      (c.lookup k).getD 0 + (if k = w then 1 else 0) := by
  unfold counterInc
  by_cases hw : (c.lookup w).isSome
  · rw [if_pos hw, lookup_map_inc]
    by_cases hkw : k = w
    · subst hkw
      obtain ⟨v, hv⟩ := Option.isSome_iff_exists.mp hw
      simp [hv]
    · simp only [hkw, if_false, if_neg hkw, add_zero]
      cases c.lookup k <;> simp
  · rw [if_neg hw, lookup_append]
    by_cases hkw : k = w
    · subst hkw
      have hn : c.lookup k = none := Option.not_isSome_iff_eq_none.mp hw
      simp [hn, List.lookup]
    · have hk : (k == w) = false := beq_eq_false_iff_ne.mpr hkw
      simp only [List.lookup, hk, if_neg hkw, add_zero]
      cases c.lookup k <;> simp

theorem foldl_counterInc_cnt (l : List String) :
    ∀ (c : List (String × Nat)) (k : String),
      ((l.foldl counterInc c).lookup k).getD 0 = (c.lookup k).getD 0 + l.count k := by
  induction l with
  | nil => intro c k; simp
  | cons a t ih =>
    intro c k
    rw [List.foldl_cons, ih, counterInc_cnt, List.count_cons]
    by_cases h : k = a
    · subst h; simp; omega
    · have ha : (a == k) = false := beq_eq_false_iff_ne.mpr (Ne.symm h)
      simp [h, ha]

theorem mkCounter_cnt (l : List String) (k : String) :
    ((mkCounter l).lookup k).getD 0 = l.count k := by
  simpa [mkCounter] using foldl_counterInc_cnt l [] k

theorem counterInc_pos {c : List (String × Nat)} (hc : ∀ p ∈ c, 1 ≤ p.2)
    (w : String) : ∀ p ∈ counterInc c w, 1 ≤ p.2 := by
  intro p hp
  unfold counterInc at hp
  by_cases hw : (c.lookup w).isSome
  · rw [if_pos hw] at hp
    obtain ⟨q, hq, rfl⟩ := List.mem_map.mp hp
    by_cases h : q.1 = w
    · simp [h]
    · simpa [h] using hc q hq
  · rw [if_neg hw] at hp
    rcases List.mem_append.mp hp with h | h
    · exact hc p h
    · simp only [List.mem_singleton] at h
      subst h; simp

theorem mkCounter_pos (l : List String) : ∀ p ∈ mkCounter l, 1 ≤ p.2 := by
  have key : ∀ (m : List String) (c : List (String × Nat)),
      (∀ p ∈ c, 1 ≤ p.2) → ∀ p ∈ m.foldl counterInc c, 1 ≤ p.2 := by
    intro m
    induction m with
    | nil => intro c hc; simpa using hc
    | cons a t ih => intro c hc; exact ih _ (counterInc_pos hc a)
  exact key l [] (by simp)

theorem sumValues_mkCounter_ne_zero {l : List String} (h : mkCounter l ≠ []) :
    sumValues (mkCounter l) ≠ 0 := by
  rcases hc : mkCounter l with _ | ⟨q, t⟩
  · exact absurd hc h
  · have hq : 1 ≤ q.2 := mkCounter_pos l q (by rw [hc]; exact List.mem_cons_self q t)
    simp only [sumValues, hc, List.map_cons, List.sum_cons]
    omega

/-! ### The load operation never faults and is a function of lexicon and tokens -/

theorem affect_percent_mkCounter (l : List String) :
    affect_percent (mkCounter l) = some (freqOf (mkCounter l)) := by
  by_cases h : mkCounter l = []
  · rw [h]; rfl
  · unfold affect_percent freqOf
    rw [if_neg h, if_neg (sumValues_mkCounter_ne_zero h)]

theorem load_token_list_eq (st : NRCState) (tl : List String) :
    load_token_list st tl = some (buildState st.lexicon tl) := by
  show build_word_affect { st with words := tl } = _
  unfold build_word_affect buildState
  simp only
  rw [affect_percent_mkCounter]

theorem foldl_matchStep_fst (lex : Lexicon) (ws : List String) :
    ∀ (a : List String) (d : List (String × List String)),
      (ws.foldl (matchStep lex) (a, d)).1 =
        a ++ (ws.filterMap (fun w => lex.lookup w)).flatten := by
  induction ws with
  | nil => intro a d; simp
  | cons w t ih =>
    intro a d
    rw [List.foldl_cons, List.filterMap_cons]
    cases h : lex.lookup w with
    | none => simp [matchStep, h, ih]
    | some es => simp [matchStep, h, ih, List.append_assoc]

theorem buildState_lexicon (lex : Lexicon) (tl : List String) :
    (buildState lex tl).lexicon = lex := rfl

theorem buildState_words (lex : Lexicon) (tl : List String) :
    (buildState lex tl).words = tl := rfl

theorem buildState_affect_list (lex : Lexicon) (tl : List String) :
    (buildState lex tl).affect_list = (tl.filterMap (fun w => lex.lookup w)).flatten := by
  simpa [buildState] using foldl_matchStep_fst lex tl [] []

theorem buildState_raw (lex : Lexicon) (tl : List String) :
    (buildState lex tl).raw_emotion_scores = mkCounter (buildState lex tl).affect_list := rfl

theorem buildState_freq (lex : Lexicon) (tl : List String) :
    (buildState lex tl).affect_frequencies = freqOf (buildState lex tl).raw_emotion_scores := rfl

/-! ### Frequency and maximum lemmas -/

theorem sum_freqOf {c : List (String × Nat)} (h : sumValues c ≠ 0) :
    ((freqOf c).map Prod.snd).sum = 1 := by
  have hs : ((sumValues c : ℚ)) ≠ 0 := Nat.cast_ne_zero.mpr h
  unfold freqOf
  rw [List.map_map]
  have hfun : (Prod.snd ∘ fun p : String × Nat => (p.1, (p.2 : ℚ) / (sumValues c : ℚ))) =
      fun p : String × Nat => (p.2 : ℚ) * (sumValues c : ℚ)⁻¹ := by
    funext p; simp [div_eq_mul_inv]
  rw [hfun, List.sum_map_mul_right]
  have h2 : (List.map (fun p : String × Nat => (p.2 : ℚ)) c).sum = (sumValues c : ℚ) := by
    unfold sumValues
    rw [Nat.cast_list_sum, List.map_map]
    rfl
  rw [h2, mul_inv_cancel₀ hs]

theorem foldl_max_le_init (l : List ℚ) : ∀ a : ℚ, a ≤ l.foldl max a := by
  induction l with
  | nil => intro a; simp
  | cons x t ih => intro a; exact le_trans (le_max_left a x) (ih (max a x))

theorem foldl_max_le_of_mem (l : List ℚ) : ∀ (a x : ℚ), x ∈ l → x ≤ l.foldl max a := by
  induction l with
  | nil => intro a x hx; simp at hx
  | cons y t ih =>
    intro a x hx
    rcases List.mem_cons.mp hx with rfl | hx
    · exact le_trans (le_max_right a x) (foldl_max_le_init t (max a x))
    · exact ih (max a y) x hx

theorem foldl_max_mem (l : List ℚ) : ∀ a : ℚ, l.foldl max a = a ∨ l.foldl max a ∈ l := by
  induction l with
  | nil => intro a; left; rfl
  | cons x t ih =>
    intro a
    rcases ih (max a x) with h | h
    · rcases max_choice a x with hm | hm
      · left; rw [List.foldl_cons, h, hm]
      · right; rw [List.foldl_cons, h, hm]; exact List.mem_cons_self x t
    · right; exact List.mem_cons_of_mem x h

theorem pymax_spec {l : List ℚ} {m : ℚ} (h : pymax l = some m) :
    m ∈ l ∧ ∀ x ∈ l, x ≤ m := by
  cases l with
  | nil => simp [pymax] at h
  | cons v vs =>
    have hm : m = vs.foldl max v := by
      simpa [pymax] using h.symm
    subst hm
    constructor
    · rcases foldl_max_mem vs v with h1 | h1
      · rw [h1]; exact List.mem_cons_self v vs
      · exact List.mem_cons_of_mem v h1
    · intro x hx
      rcases List.mem_cons.mp hx with rfl | hx
      · exact foldl_max_le_init vs x
      · exact foldl_max_le_of_mem vs v x hx

theorem map_keep_of_snd_eq {l : List (String × ℚ)} {m : ℚ}
    (h : ∀ p ∈ l, p.2 = m) : l.map (fun p => (p.1, m)) = l := by
  induction l with
  | nil => rfl
  | cons q t ih =>
    have hq : q.2 = m := h q (List.mem_cons_self q t)
    rw [List.map_cons, ih (fun p hp => h p (List.mem_cons_of_mem q hp))]
    rw [← hq]

theorem mkCounter_ne_nil {l : List String} (h : l ≠ []) : mkCounter l ≠ [] := by
  cases l with
  | nil => exact absurd rfl h
  | cons a t =>
    intro hc
    have hcnt := mkCounter_cnt (a :: t) a
    rw [hc] at hcnt
    rw [List.count_cons] at hcnt
    simp at hcnt

/-! ### Claim theorems -/

/-- Claim C1, counterexample to the claim as stated: with the example lexicon
and the single token `stone`, no token is a key of the lexicon, yet the load
completes without an arithmetic fault (`none` models a raised
`ZeroDivisionError`): the frequency comprehension iterates over the keys of
the empty counter, so it performs no division at all. -/
theorem claim1_counterexample :
    (∀ w ∈ ["stone"], exLex.lookup w = none) ∧
    load_token_list (initState exLex) ["stone"] ≠ none := by
  decide

/-- Claim C1 as amended: if no token of the loaded sequence is a key of the
lexicon, the matched-emotion list is empty, the total of the raw counts is
zero and the frequency map is empty, and the load succeeds without raising;
the zero-match failure surfaces only later, at the top-emotions accessor. -/
theorem claim1_amended_zero_match (st : NRCState) (tl : List String)
    (h : ∀ w ∈ tl, st.lexicon.lookup w = none) :
    ∃ st', load_token_list st tl = some st' ∧
      st'.affect_list = [] ∧
      sumValues st'.raw_emotion_scores = 0 ∧
      st'.affect_frequencies = [] := by
  refine ⟨buildState st.lexicon tl, load_token_list_eq st tl, ?_, ?_, ?_⟩
  all_goals
    have hal : (buildState st.lexicon tl).affect_list = [] := by
      rw [buildState_affect_list, List.filterMap_eq_nil_iff.mpr h]
      rfl
  · exact hal
  · rw [buildState_raw, hal]; rfl
  · rw [buildState_freq, buildState_raw, hal]; rfl

/-- Witness for the amended claim C1 at a concrete input. -/
theorem claim1_amended_witness :
    (∀ w ∈ ["stone"], (initState exLex).lexicon.lookup w = none) ∧
    (∃ st', load_token_list (initState exLex) ["stone"] = some st' ∧
      st'.affect_list = [] ∧ sumValues st'.raw_emotion_scores = 0 ∧
      st'.affect_frequencies = []) :=
  ⟨by decide, claim1_amended_zero_match (initState exLex) ["stone"] (by decide)⟩

/-- Claim C2: after loading token sequence `tl`, the matched-emotion list is
the concatenation, in token order, of the full emotion list of each token
that is a key of the lexicon (duplicates and per-word order preserved), and
its length is the sum of the lengths of those emotion lists. -/
theorem claim2_matched_emotion_list (st : NRCState) (tl : List String) (st' : NRCState)
    (hload : load_token_list st tl = some st') :
    st'.affect_list = (tl.filterMap (fun w => st.lexicon.lookup w)).flatten ∧
    st'.affect_list.length =
      ((tl.filterMap (fun w => st.lexicon.lookup w)).map List.length).sum := by
  rw [load_token_list_eq] at hload
  obtain rfl := Option.some.inj hload
  refine ⟨buildState_affect_list _ _, ?_⟩
  rw [buildState_affect_list, List.length_flatten]

/-- Witness for claim C2 on the specification scenario tokens. -/
theorem claim2_witness :
    (load_token_list (initState exLex) ["happy", "happy", "sad"] =
      some (buildState exLex ["happy", "happy", "sad"])) ∧
    ((buildState exLex ["happy", "happy", "sad"]).affect_list =
      ((["happy", "happy", "sad"].filterMap (fun w => exLex.lookup w)).flatten) ∧
    (buildState exLex ["happy", "happy", "sad"]).affect_list.length =
      ((["happy", "happy", "sad"].filterMap (fun w => exLex.lookup w)).map List.length).sum) :=
  ⟨load_token_list_eq _ _,
    claim2_matched_emotion_list (initState exLex) ["happy", "happy", "sad"] _
      (load_token_list_eq _ _)⟩

/-- Claim C8: loading the empty token sequence succeeds and yields an empty
matched-emotion list and an empty matched word-to-emotions map. -/
theorem claim8_empty_tokens (st : NRCState) :
    ∃ st', load_token_list st [] = some st' ∧
      st'.affect_list = [] ∧ st'.affect_dict = [] :=
  ⟨buildState st.lexicon [], load_token_list_eq st [], rfl, rfl⟩

/-- Claim C10: reading the top-emotions accessor while the frequency map is
empty raises (here: returns `none`, modelling the `ValueError` of `max()` on
an empty sequence), both on a freshly constructed state and after loading a
token sequence with zero lexicon matches; the load itself succeeds, so the
zero-match failure surfaces at this accessor and not during the load. -/
theorem claim10_top_emotions_empty_map :
    (∀ lex : Lexicon, top_emotions (initState lex) = none) ∧
    (∀ (st : NRCState) (tl : List String),
      (∀ w ∈ tl, st.lexicon.lookup w = none) →
      ∃ st', load_token_list st tl = some st' ∧
        st'.affect_frequencies = [] ∧ top_emotions st' = none) := by
  refine ⟨fun lex => rfl, ?_⟩
  intro st tl h
  refine ⟨buildState st.lexicon tl, load_token_list_eq st tl, ?_, ?_⟩
  all_goals
    have hfreq : (buildState st.lexicon tl).affect_frequencies = [] := by
      rw [buildState_freq, buildState_raw, buildState_affect_list,
        List.filterMap_eq_nil_iff.mpr h]
      rfl
  · exact hfreq
  · unfold top_emotions
    rw [hfreq]
    rfl

/-- Witness for claim C10 at a concrete input. -/
theorem claim10_witness :
    top_emotions (initState exLex) = none ∧
    (∀ w ∈ ["stone"], (initState exLex).lexicon.lookup w = none) ∧
    (∃ st', load_token_list (initState exLex) ["stone"] = some st' ∧
      st'.affect_frequencies = [] ∧ top_emotions st' = none) :=
  ⟨claim10_top_emotions_empty_map.1 exLex, by decide,
    claim10_top_emotions_empty_map.2 (initState exLex) ["stone"] (by decide)⟩

theorem pymax_eq_none {l : List ℚ} (h : pymax l = none) : l = [] := by
  cases l with
  | nil => rfl
  | cons v vs => simp [pymax] at h

/-- Claim C3: after any load that produces a non-empty frequency map, the
top-emotions accessor returns exactly the (label, frequency) pairs whose
frequency equals the maximum frequency over all emotions: every returned
pair attains the maximum, the maximum is attained, no emotion has a strictly
higher frequency, and all ties are included. -/
theorem claim3_top_emotions_max (st : NRCState) (tl : List String) (st' : NRCState)
    (_hload : load_token_list st tl = some st')
    (hne : st'.affect_frequencies ≠ []) :
    ∃ m l, top_emotions st' = some l ∧
      (∀ p ∈ st'.affect_frequencies, p.2 ≤ m) ∧
      (∃ q ∈ st'.affect_frequencies, q.2 = m) ∧
      (∀ p : String × ℚ, p ∈ l ↔ p ∈ st'.affect_frequencies ∧ p.2 = m) := by
  cases hp : pymax (st'.affect_frequencies.map Prod.snd) with
  | none =>
    exact absurd (List.map_eq_nil_iff.mp (pymax_eq_none hp)) hne
  | some m =>
    obtain ⟨hmem, hle⟩ := pymax_spec hp
    have hall : ∀ p ∈ st'.affect_frequencies.filter (fun p => decide (p.2 = m)), p.2 = m :=
      fun p hp2 => of_decide_eq_true (List.mem_filter.mp hp2).2
    refine ⟨m, st'.affect_frequencies.filter (fun p => decide (p.2 = m)), ?_, ?_, ?_, ?_⟩
    · unfold top_emotions
      rw [hp]
      exact congrArg some (map_keep_of_snd_eq hall)
    · intro p hp2
      exact hle p.2 (List.mem_map_of_mem Prod.snd hp2)
    · obtain ⟨q, hq, hq2⟩ := List.mem_map.mp hmem
      exact ⟨q, hq, hq2⟩
    · intro p
      rw [List.mem_filter, decide_eq_true_eq]

/-- Witness for claim C3 on the specification scenario tokens. -/
theorem claim3_witness :
    ((buildState exLex ["happy", "happy", "sad"]).affect_frequencies ≠ []) ∧
    (∃ m l, top_emotions (buildState exLex ["happy", "happy", "sad"]) = some l ∧
      (∀ p ∈ (buildState exLex ["happy", "happy", "sad"]).affect_frequencies, p.2 ≤ m) ∧
      (∃ q ∈ (buildState exLex ["happy", "happy", "sad"]).affect_frequencies, q.2 = m) ∧
      (∀ p : String × ℚ, p ∈ l ↔
        p ∈ (buildState exLex ["happy", "happy", "sad"]).affect_frequencies ∧ p.2 = m)) :=
  ⟨by decide, claim3_top_emotions_max (initState exLex) ["happy", "happy", "sad"] _
    (load_token_list_eq _ _) (by decide)⟩

/-- Claim C4: after a load with at least one lexicon match, the raw score of
every emotion is its occurrence count in the matched-emotion list, each
frequency is the raw count divided by the total of all raw counts, and the
frequencies sum to exactly 1 over rational arithmetic. -/
theorem claim4_frequencies (st : NRCState) (tl : List String) (st' : NRCState)
    (hload : load_token_list st tl = some st')
    (hne : st'.affect_list ≠ []) :
    (∀ e : String, (st'.raw_emotion_scores.lookup e).getD 0 = st'.affect_list.count e) ∧
    st'.affect_frequencies = st'.raw_emotion_scores.map
      (fun p => (p.1, (p.2 : ℚ) / (sumValues st'.raw_emotion_scores : ℚ))) ∧
    ((st'.affect_frequencies.map Prod.snd).sum = 1) := by
  rw [load_token_list_eq] at hload
  obtain rfl := Option.some.inj hload
  refine ⟨?_, rfl, ?_⟩
  · intro e
    rw [buildState_raw, mkCounter_cnt]
  · rw [buildState_freq]
    apply sum_freqOf
    rw [buildState_raw]
    exact sumValues_mkCounter_ne_zero (mkCounter_ne_nil hne)

/-- Witness for claim C4 on the specification scenario tokens. -/
theorem claim4_witness :
    ((buildState exLex ["happy", "happy", "sad"]).affect_list ≠ []) ∧
    ((∀ e : String,
        ((buildState exLex ["happy", "happy", "sad"]).raw_emotion_scores.lookup e).getD 0 =
          (buildState exLex ["happy", "happy", "sad"]).affect_list.count e) ∧
      (buildState exLex ["happy", "happy", "sad"]).affect_frequencies =
        (buildState exLex ["happy", "happy", "sad"]).raw_emotion_scores.map
          (fun p => (p.1, (p.2 : ℚ) /
            (sumValues (buildState exLex ["happy", "happy", "sad"]).raw_emotion_scores : ℚ))) ∧
      (((buildState exLex ["happy", "happy", "sad"]).affect_frequencies.map Prod.snd).sum = 1)) :=
  ⟨by decide, claim4_frequencies (initState exLex) ["happy", "happy", "sad"] _
    (load_token_list_eq _ _) (by decide)⟩

/-- Claim C5: loading token sequence A, then B, then A again reproduces
exactly the derived state of the first load of A; no state from B persists,
and in particular the top-emotions accessor agrees. -/
theorem claim5_reload_idempotent (st : NRCState) (A B : List String)
    (s1 s2 s3 : NRCState)
    (h1 : load_token_list st A = some s1)
    (h2 : load_token_list s1 B = some s2)
    (h3 : load_token_list s2 A = some s3) :
    s3 = s1 ∧ top_emotions s3 = top_emotions s1 := by
  rw [load_token_list_eq] at h1 h2 h3
  obtain rfl := Option.some.inj h1
  obtain rfl := Option.some.inj h2
  obtain rfl := Option.some.inj h3
  exact ⟨rfl, rfl⟩

/-- Witness for claim C5 at concrete token sequences. -/
theorem claim5_witness :
    buildState exLex ["sad"] = buildState exLex ["sad"] ∧
    top_emotions (buildState exLex ["sad"]) = top_emotions (buildState exLex ["sad"]) :=
  claim5_reload_idempotent (initState exLex) ["sad"] ["happy"] _ _ _
    (load_token_list_eq _ _) (load_token_list_eq _ _) (load_token_list_eq _ _)

/-- Claim C6: a token load is atomic with respect to the derived state: the
full recompute always succeeds, and every derived field of the resulting
state (token sequence, matched-emotion list, matched map, raw counts,
frequencies) is a function of the lexicon and the new input alone, with no
mixture of old and new state. -/
theorem claim6_load_atomic (st : NRCState) (tl : List String) :
    ∃ st', load_token_list st tl = some st' ∧
      st'.lexicon = st.lexicon ∧ st'.words = tl ∧
      st'.affect_list = (tl.filterMap (fun w => st.lexicon.lookup w)).flatten ∧
      st'.affect_dict = (tl.foldl (matchStep st.lexicon) ([], [])).2 ∧
      st'.raw_emotion_scores = mkCounter st'.affect_list ∧
      st'.affect_frequencies = freqOf st'.raw_emotion_scores :=
  ⟨buildState st.lexicon tl, load_token_list_eq st tl, rfl, rfl,
    buildState_affect_list _ _, rfl, rfl, rfl⟩

/-- Claim C7: constructing the analyzer with an argument that is neither the
recognized designator nor a path raises `TypeError` (for every possible file
system, so before any lexicon is loaded); a path argument loads that file,
and the recognized designator loads the packaged resource. -/
theorem claim7_init_dispatch :
    (∀ (readFile : String → Lexicon) (s : String), s ≠ preinstalledName →
      NRCLex_init readFile (LexiconFile.designator s) = Except.error PyError.typeError) ∧
    (∀ (readFile : String → Lexicon) (p : String),
      NRCLex_init readFile (LexiconFile.path p) = Except.ok (initState (readFile p))) ∧
    (∀ readFile : String → Lexicon,
      NRCLex_init readFile (LexiconFile.designator preinstalledName) =
        Except.ok (initState (readFile preinstalledResource))) := by
  refine ⟨?_, fun _ _ => rfl, ?_⟩
  · intro rf s hs
    simp only [NRCLex_init]
    rw [if_neg hs]
  · intro rf
    simp [NRCLex_init]

/-- Witness for claim C7 at a concrete unrecognized designator. -/
theorem claim7_witness :
    ("emolex" ≠ preinstalledName) ∧
    NRCLex_init (fun _ => exLex) (LexiconFile.designator "emolex") =
      Except.error PyError.typeError :=
  ⟨by decide, claim7_init_dispatch.1 (fun _ => exLex) "emolex" (by decide)⟩

/-- Claim C9: no analysis operation mutates the lexicon: both token loads
and raw-text loads leave `lexicon` unchanged, and only the explicit
lexicon-load operation (and construction) replace it. -/
theorem claim9_lexicon_immutable :
    (∀ (st : NRCState) (tl : List String) (st' : NRCState),
      load_token_list st tl = some st' → st'.lexicon = st.lexicon) ∧
    (∀ (tokenize : String → List String) (st : NRCState) (text : String) (st' : NRCState),
      load_raw_text tokenize st text = some st' → st'.lexicon = st.lexicon) ∧
    (∀ (readFile : String → Lexicon) (st : NRCState) (p : String),
      (load_lexicon readFile st p).lexicon = readFile p) := by
  refine ⟨?_, ?_, fun _ _ _ => rfl⟩
  · intro st tl st' h
    rw [load_token_list_eq] at h
    obtain rfl := Option.some.inj h
    rfl
  · intro tok st text st' h
    unfold load_raw_text at h
    rw [load_token_list_eq] at h
    obtain rfl := Option.some.inj h
    rfl

/-- Witness for claim C9 at concrete inputs. -/
theorem claim9_witness :
    (buildState exLex ["happy"]).lexicon = (initState exLex).lexicon ∧
    (buildState exLex ["sad"]).lexicon = (initState exLex).lexicon :=
  ⟨claim9_lexicon_immutable.1 (initState exLex) ["happy"] _ (load_token_list_eq _ _),
    claim9_lexicon_immutable.2.1 (fun _ => ["sad"]) (initState exLex) "gloomy day" _
      (load_token_list_eq _ _)⟩

end NRCLex
